import Mathlib

/- Shallow embedding of the NutritionProviderService response-normalization and
aggregation pipeline.

Source files embedded here:
  - food-analysis-lambda/service/utils.py (extract_json_from_response,
    calculate_total_nutrition)
  - food-analysis-lambda/service/models.py (NutritionData, FoodComponent,
    create_nutrition_data_from_dict, create_food_component_from_dict)
  - food-analysis-lambda/service/claude_vision_service.py
    (_clean_component_name, _parse_claude_response)
  - analyse_food_image_lambda/service/models.py (NutritionData with optional
    fiber, sugar, sodium; create_nutrition_data_from_dict)
  - analyse_food_image_lambda/service/claude_vision_service.py
    (_parse_claude_response)

Python numbers are modelled as rationals; Python exceptions are modelled by
Option (none = the call raised). JSON values decoded by json.loads are
modelled by the inductive type Json below; dicts are association lists with
last-occurrence-wins lookup, as CPython dict construction keeps the last
duplicate key. -/

/- A decoded JSON value as produced by json.loads: null, bool, number,
string, array, or object. -/
inductive Json where
  | null : Json
  | bool : Bool → Json
  | num : ℚ → Json
  | str : String → Json
  | arr : List Json → Json
  | obj : List (String × Json) → Json
deriving Repr

/- A Python dict decoded from JSON: association list of key-value pairs. -/
def PyDict := List (String × Json)

/- Python dict lookup d.get(k): last binding of the key wins, none when the
key is missing. -/
def dGet (d : PyDict) (k : String) : Option Json :=
  match d with
  | [] => none
  | (k1, v) :: rest =>
    match dGet rest k with
    | some r => some r
    | none => if k1 = k then some v else none

/- Python dict lookup d.get(k) where a missing key yields None (Json.null),
like the Python expression data.get(k). -/
def dGetPy (d : PyDict) (k : String) : Json :=
  (dGet d k).getD Json.null

/- Python truthiness of a JSON-decoded value: None, False, 0, empty string,
empty list and empty dict are falsy, everything else is truthy. -/
def jsonTruthy : Json → Bool
  | Json.null => false
  | Json.bool b => b
  | Json.num q => if q = 0 then false else true
  | Json.str s => if s = "" then false else true
  | Json.arr l => if l.isEmpty then false else true
  | Json.obj l => if l.isEmpty then false else true

/- Python whitespace characters (the ASCII ones recognised by str.split,
str.strip and the regex class backslash-s). -/
def isPySpace (c : Char) : Bool :=
  c = ' ' || c = '\t' || c = '\n' || c = '\r' || c = '\x0b' || c = '\x0c'

/- Strip Python whitespace from both ends of a character list (str.strip). -/
def stripPyWs (cs : List Char) : List Char :=
  ((cs.dropWhile isPySpace).reverse.dropWhile isPySpace).reverse

/- Consume a run of decimal digits, returning the accumulated value, the
number of digits consumed and the rest of the input. -/
def digitsVal : List Char → Nat → Nat → (Nat × Nat × List Char)
  | [], acc, n => (acc, n, [])
  | c :: cs, acc, n =>
    if c.isDigit then digitsVal cs (10 * acc + (c.toNat - 48)) (n + 1)
    else (acc, n, c :: cs)

/- Python float(string) on an already-stripped character list: optional sign,
digits with an optional fractional part, optional decimal exponent. The
special spellings inf, infinity, nan and digit-group underscores are not
modelled; no input in this development uses them. -/
def pyFloatCore (cs : List Char) : Option ℚ :=
  let sgncs : ℚ × List Char :=
    match cs with
    | '+' :: r => (1, r)
    | '-' :: r => (-1, r)
    | r => (1, r)
  let ipr := digitsVal sgncs.2 0 0
  let fpr : Nat × Nat × List Char :=
    match ipr.2.2 with
    | '.' :: r => digitsVal r 0 0
    | r => (0, 0, r)
  if ipr.2.1 + fpr.2.1 = 0 then none
  else
    let mant : ℚ := (ipr.1 : ℚ) + (fpr.1 : ℚ) / (10 : ℚ) ^ fpr.2.1
    match fpr.2.2 with
    | [] => some (sgncs.1 * mant)
    | e :: r =>
      if e = 'e' || e = 'E' then
        let esgnr : Bool × List Char :=
          match r with
          | '+' :: rr => (false, rr)
          | '-' :: rr => (true, rr)
          | rr => (false, rr)
        let epr := digitsVal esgnr.2 0 0
        if epr.2.1 = 0 then none
        else if epr.2.2.isEmpty then
          some (sgncs.1 * mant *
            (if esgnr.1 then ((10 : ℚ) ^ epr.1)⁻¹ else (10 : ℚ) ^ epr.1))
        else none
      else none

/- Python float(value) applied to a JSON-decoded value: numbers pass through,
booleans coerce to 1 and 0, strings are stripped and parsed, everything else
raises TypeError (modelled as none). -/
def pyFloatJson : Json → Option ℚ
  | Json.num q => some q
  | Json.bool b => some (if b then 1 else 0)
  | Json.str s => pyFloatCore (stripPyWs s.toList)
  | _ => none

/- Python round(x) with no digits argument: round half to even. -/
def pyRound (q : ℚ) : ℤ :=
  if q - (q.floor : ℚ) < 1 / 2 then q.floor
  else if 1 / 2 < q - (q.floor : ℚ) then q.floor + 1
  else if q.floor % 2 = 0 then q.floor else q.floor + 1

/- ItemType enum shared by both lambdas (models.py). -/
inductive ItemType where
  | branded_product : ItemType
  | meal : ItemType
  | meal_component : ItemType
deriving Repr, DecidableEq

/- ItemType(value) on a JSON-decoded value: only the three member strings are
accepted, anything else raises ValueError. -/
def ItemType.ofJson : Json → Option ItemType
  | Json.str s =>
    if s = "branded_product" then some ItemType.branded_product
    else if s = "meal" then some ItemType.meal
    else if s = "meal_component" then some ItemType.meal_component
    else none
  | _ => none

/- NutritionSource enum (models.py). -/
inductive NutritionSource where
  | open_food_facts : NutritionSource
  | usda : NutritionSource
  | ddb_cache : NutritionSource
  | ai_estimate : NutritionSource
deriving Repr, DecidableEq

def NutritionSource.ofJson : Json → Option NutritionSource
  | Json.str s =>
    if s = "open_food_facts" then some NutritionSource.open_food_facts
    else if s = "usda" then some NutritionSource.usda
    else if s = "ddb_cache" then some NutritionSource.ddb_cache
    else if s = "ai_estimate" then some NutritionSource.ai_estimate
    else none
  | _ => none

/- ConfidenceLevel enum (models.py). -/
inductive ConfidenceLevel where
  | high : ConfidenceLevel
  | medium : ConfidenceLevel
  | low : ConfidenceLevel
deriving Repr, DecidableEq

def ConfidenceLevel.ofJson : Json → Option ConfidenceLevel
  | Json.str s =>
    if s = "high" then some ConfidenceLevel.high
    else if s = "medium" then some ConfidenceLevel.medium
    else if s = "low" then some ConfidenceLevel.low
    else none
  | _ => none

namespace AnalyseFoodImage

/- NutritionData from analyse_food_image_lambda/service/models.py: the four
required macros plus optional fiber, sugar, sodium (None modelled as none).
This is the record shape that calculate_total_nutrition reads. -/
structure NutritionData where
  calories : ℚ
  protein : ℚ
  carbs : ℚ
  fat : ℚ
  fiber : Option ℚ := none
  sugar : Option ℚ := none
  sodium : Option ℚ := none
deriving Repr, DecidableEq

/- FoodComponent from analyse_food_image_lambda/service/models.py. The
dataclass does not enforce its annotations, so name, unit, brand and barcode
hold whatever JSON value the source supplied. -/
structure FoodComponent where
  name : Json
  item_type : ItemType
  quantity : ℚ
  unit : Json
  claude_estimate : NutritionData
  brand : Json := Json.null
  barcode : Json := Json.null
  nutrition : Option NutritionData := none
  source : Option NutritionSource := none
  confidence : Option ConfidenceLevel := none
deriving Repr

/- ClaudeAnalysisResult from analyse_food_image_lambda/service/models.py. -/
structure ClaudeAnalysisResult where
  dish_name : Json
  item_type : ItemType
  components : List FoodComponent
  total_claude_estimate : NutritionData
  raw_response : Option String := none
deriving Repr

/- One optional field of create_nutrition_data_from_dict: the Python
expression float(data[k]) if data.get(k) else None. The outer Option models
the exception raised when the value is truthy but not coercible. -/
def optField (data : PyDict) (k : String) : Option (Option ℚ) :=
  if jsonTruthy (dGetPy data k) then (pyFloatJson (dGetPy data k)).map some
  else some (none)

/- create_nutrition_data_from_dict from
analyse_food_image_lambda/service/models.py: required macros default to 0
when the key is absent, optional fields are kept only when truthy. -/
def create_nutrition_data_from_dict (data : PyDict) : Option NutritionData :=
  Option.bind (pyFloatJson ((dGet data "calories").getD (Json.num 0))) fun calories =>
  Option.bind (pyFloatJson ((dGet data "protein").getD (Json.num 0))) fun protein =>
  Option.bind (pyFloatJson ((dGet data "carbs").getD (Json.num 0))) fun carbs =>
  Option.bind (pyFloatJson ((dGet data "fat").getD (Json.num 0))) fun fat =>
  Option.bind (optField data "fiber") fun fiber =>
  Option.bind (optField data "sugar") fun sugar =>
  Option.bind (optField data "sodium") fun sodium =>
  some { calories := calories, protein := protein, carbs := carbs, fat := fat,
         fiber := fiber, sugar := sugar, sodium := sodium }

end AnalyseFoodImage

/- The running totals accumulated by the loop in calculate_total_nutrition
(food-analysis-lambda/service/utils.py, lines 158-181). -/
structure NutritionTotals where
  calories : ℚ
  protein : ℚ
  carbs : ℚ
  fat : ℚ
  fiber : ℚ
  sugar : ℚ
  sodium : ℚ
deriving Repr, DecidableEq

/- The dict returned by calculate_total_nutrition after the zero-cleanup:
optional entries replaced by None when their accumulated total is zero. -/
structure TotalsDict where
  calories : ℚ
  protein : ℚ
  carbs : ℚ
  fat : ℚ
  fiber : Option ℚ
  sugar : Option ℚ
  sodium : Option ℚ
deriving Repr, DecidableEq

/- Truthiness of an optional nutrition value, as tested by the statements
"if nutrition.fiber:" in the loop: present and nonzero. -/
def optTruthy : Option ℚ → Bool
  | some x => if x = 0 then false else true
  | none => false

/- The record a component contributes to the totals: "component.nutrition or
component.claude_estimate". A dataclass instance is always truthy, so the
Python or-expression picks the resolved nutrition exactly when it is not
None. -/
def effectiveNutrition (c : AnalyseFoodImage.FoodComponent) :
    AnalyseFoodImage.NutritionData :=
  c.nutrition.getD c.claude_estimate

/- One iteration of the loop in calculate_total_nutrition: pick the effective
nutrition record, add the required fields unconditionally and each optional
field only when truthy. -/
def addComponent (t : NutritionTotals) (c : AnalyseFoodImage.FoodComponent) :
    NutritionTotals :=
  let nutrition := effectiveNutrition c
  { calories := t.calories + nutrition.calories
    protein := t.protein + nutrition.protein
    carbs := t.carbs + nutrition.carbs
    fat := t.fat + nutrition.fat
    fiber := if optTruthy nutrition.fiber then t.fiber + nutrition.fiber.getD 0
             else t.fiber
    sugar := if optTruthy nutrition.sugar then t.sugar + nutrition.sugar.getD 0
             else t.sugar
    sodium := if optTruthy nutrition.sodium then t.sodium + nutrition.sodium.getD 0
              else t.sodium }

/- calculate_total_nutrition from food-analysis-lambda/service/utils.py,
lines 148-191. The function reads the seven-field record shape (it accesses
nutrition.fiber and friends), which is the NutritionData of
analyse_food_image_lambda/service/models.py; the four-field NutritionData
declared next to it in food-analysis-lambda/service/models.py has no such
attributes, so the components embedded here carry the seven-field records the
function is written against. -/
def calculate_total_nutrition (components : List AnalyseFoodImage.FoodComponent) :
    TotalsDict :=
  let t := components.foldl addComponent
    { calories := 0, protein := 0, carbs := 0, fat := 0,
      fiber := 0, sugar := 0, sodium := 0 }
  { calories := t.calories
    protein := t.protein
    carbs := t.carbs
    fat := t.fat
    fiber := if t.fiber = 0 then none else some t.fiber
    sugar := if t.sugar = 0 then none else some t.sugar
    sodium := if t.sodium = 0 then none else some t.sodium }

/- Adding one effective nutrition record to the running totals; the loop body
of calculate_total_nutrition factors through it. -/
def addN (t : NutritionTotals) (n : AnalyseFoodImage.NutritionData) :
    NutritionTotals :=
  { calories := t.calories + n.calories
    protein := t.protein + n.protein
    carbs := t.carbs + n.carbs
    fat := t.fat + n.fat
    fiber := if optTruthy n.fiber then t.fiber + n.fiber.getD 0 else t.fiber
    sugar := if optTruthy n.sugar then t.sugar + n.sugar.getD 0 else t.sugar
    sodium := if optTruthy n.sodium then t.sodium + n.sodium.getD 0
              else t.sodium }

lemma addComponent_eq_addN (t : NutritionTotals)
    (c : AnalyseFoodImage.FoodComponent) :
    addComponent t c = addN t (effectiveNutrition c) := rfl

lemma foldl_addComponent_eq_addN (cs : List AnalyseFoodImage.FoodComponent)
    (t : NutritionTotals) :
    cs.foldl addComponent t = (cs.map effectiveNutrition).foldl addN t := by
  induction cs generalizing t with
  | nil => rfl
  | cons c cs ih => simp [List.foldl_cons, addComponent_eq_addN, ih]

lemma optTruthy_false_getD (o : Option ℚ) (h : optTruthy o = false) :
    o.getD 0 = 0 := by
  cases o with
  | none => rfl
  | some x =>
    by_cases hx : x = 0
    · simp [hx]
    · simp [optTruthy, hx] at h

lemma foldl_addN_calories (ns : List AnalyseFoodImage.NutritionData)
    (t : NutritionTotals) :
    (ns.foldl addN t).calories
      = t.calories + (ns.map (fun n => n.calories)).sum := by
  induction ns generalizing t with
  | nil => simp
  | cons n ns ih => simp [addN, ih]; ring

lemma foldl_addN_protein (ns : List AnalyseFoodImage.NutritionData)
    (t : NutritionTotals) :
    (ns.foldl addN t).protein
      = t.protein + (ns.map (fun n => n.protein)).sum := by
  induction ns generalizing t with
  | nil => simp
  | cons n ns ih => simp [addN, ih]; ring

lemma foldl_addN_carbs (ns : List AnalyseFoodImage.NutritionData)
    (t : NutritionTotals) :
    (ns.foldl addN t).carbs
      = t.carbs + (ns.map (fun n => n.carbs)).sum := by
  induction ns generalizing t with
  | nil => simp
  | cons n ns ih => simp [addN, ih]; ring

lemma foldl_addN_fat (ns : List AnalyseFoodImage.NutritionData)
    (t : NutritionTotals) :
    (ns.foldl addN t).fat
      = t.fat + (ns.map (fun n => n.fat)).sum := by
  induction ns generalizing t with
  | nil => simp
  | cons n ns ih => simp [addN, ih]; ring

lemma foldl_addN_fiber (ns : List AnalyseFoodImage.NutritionData)
    (t : NutritionTotals) :
    (ns.foldl addN t).fiber
      = t.fiber + (ns.map (fun n => n.fiber.getD 0)).sum := by
  induction ns generalizing t with
  | nil => simp
  | cons n ns ih =>
    simp only [List.foldl_cons, List.map_cons, List.sum_cons, ih]
    by_cases h : optTruthy n.fiber
    · simp [addN, h]; ring
    · have hb : optTruthy n.fiber = false := by
        simpa using h
      simp [addN, hb, optTruthy_false_getD n.fiber hb]

lemma foldl_addN_sugar (ns : List AnalyseFoodImage.NutritionData)
    (t : NutritionTotals) :
    (ns.foldl addN t).sugar
      = t.sugar + (ns.map (fun n => n.sugar.getD 0)).sum := by
  induction ns generalizing t with
  | nil => simp
  | cons n ns ih =>
    simp only [List.foldl_cons, List.map_cons, List.sum_cons, ih]
    by_cases h : optTruthy n.sugar
    · simp [addN, h]; ring
    · have hb : optTruthy n.sugar = false := by
        simpa using h
      simp [addN, hb, optTruthy_false_getD n.sugar hb]

lemma foldl_addN_sodium (ns : List AnalyseFoodImage.NutritionData)
    (t : NutritionTotals) :
    (ns.foldl addN t).sodium
      = t.sodium + (ns.map (fun n => n.sodium.getD 0)).sum := by
  induction ns generalizing t with
  | nil => simp
  | cons n ns ih =>
    simp only [List.foldl_cons, List.map_cons, List.sum_cons, ih]
    by_cases h : optTruthy n.sodium
    · simp [addN, h]; ring
    · have hb : optTruthy n.sodium = false := by
        simpa using h
      simp [addN, hb, optTruthy_false_getD n.sodium hb]

/- Sum of an optional field over exactly the components on which the
effective record reports it (absent entries are filtered out). -/
def presentSum (f : AnalyseFoodImage.NutritionData → Option ℚ)
    (cs : List AnalyseFoodImage.FoodComponent) : ℚ :=
  ((cs.filter (fun c => (f (effectiveNutrition c)).isSome)).map
    (fun c => (f (effectiveNutrition c)).getD 0)).sum

lemma presentSum_eq_getD_sum (f : AnalyseFoodImage.NutritionData → Option ℚ)
    (cs : List AnalyseFoodImage.FoodComponent) :
    presentSum f cs
      = (cs.map (fun c => (f (effectiveNutrition c)).getD 0)).sum := by
  induction cs with
  | nil => rfl
  | cons c cs ih =>
    by_cases h : (f (effectiveNutrition c)).isSome
    · simp [presentSum, List.filter_cons, h] at ih ⊢
      exact ih
    · have hz : (f (effectiveNutrition c)).getD 0 = 0 := by
        cases hf : f (effectiveNutrition c) with
        | none => rfl
        | some x => simp [hf] at h
      simp [presentSum, List.filter_cons, h, hz] at ih ⊢
      exact ih

/-- C1: for every component list, each required field (calories, protein,
carbs, fat) of the total computed by calculate_total_nutrition equals the
arithmetic sum of that field over the per-component effective nutrition
records it summed (resolved nutrition when present, claude estimate
otherwise). -/
theorem C1_total_required_fields_sum
    (cs : List AnalyseFoodImage.FoodComponent) :
    (calculate_total_nutrition cs).calories
        = (cs.map (fun c => (effectiveNutrition c).calories)).sum
      ∧ (calculate_total_nutrition cs).protein
        = (cs.map (fun c => (effectiveNutrition c).protein)).sum
      ∧ (calculate_total_nutrition cs).carbs
        = (cs.map (fun c => (effectiveNutrition c).carbs)).sum
      ∧ (calculate_total_nutrition cs).fat
        = (cs.map (fun c => (effectiveNutrition c).fat)).sum := by
  refine ⟨?_, ?_, ?_, ?_⟩ <;>
    simp [calculate_total_nutrition, foldl_addComponent_eq_addN,
      foldl_addN_calories, foldl_addN_protein, foldl_addN_carbs,
      foldl_addN_fat, List.map_map, Function.comp_def]

/- A component whose effective record reports fiber with value 0: used to
refute C2 as stated. -/
def c2comp : AnalyseFoodImage.FoodComponent :=
  { name := Json.str "Plain rice", item_type := ItemType.meal_component,
    quantity := 100, unit := Json.str "g",
    claude_estimate :=
      { calories := 130, protein := 2, carbs := 28, fat := 0,
        fiber := some 0 } }

/-- C2 counterexample: in the list [c2comp] the optional field fiber is
present (with value 0) on the one component, so the claim as stated requires
the total fiber to equal the sum of the present values, 0 — yet
calculate_total_nutrition returns an absent (none) fiber total, not some 0. -/
theorem C2_counterexample :
    ((effectiveNutrition c2comp).fiber).isSome = true
      ∧ presentSum (fun n => n.fiber) [c2comp] = 0
      ∧ (calculate_total_nutrition [c2comp]).fiber = none
      ∧ ¬ (calculate_total_nutrition [c2comp]).fiber
          = some (presentSum (fun n => n.fiber) [c2comp]) := by
  refine ⟨rfl, ?_, rfl, ?_⟩
  · simp [presentSum, c2comp, effectiveNutrition]
  · intro h
    have : (none : Option ℚ) = some (presentSum (fun n => n.fiber) [c2comp]) := h
    exact Option.noConfusion this

/-- C2 amended: for each optional field (fiber, sugar, sodium), when the
values reported on the effective records sum to zero over the components on
which the field is present — in particular when the field is absent on every
component, or present only with value 0 — the field is absent (none) in the
computed total; when that sum is nonzero, the total's field equals the sum
over exactly the components on which the field is present. (The claim as
frozen fails only because a zero-valued present field, or present values
cancelling to zero, yields an absent total rather than a present zero.) -/
theorem C2_amended_optional_field_totals
    (cs : List AnalyseFoodImage.FoodComponent) :
    (presentSum (fun n => n.fiber) cs = 0
        → (calculate_total_nutrition cs).fiber = none)
      ∧ (presentSum (fun n => n.fiber) cs ≠ 0
        → (calculate_total_nutrition cs).fiber
            = some (presentSum (fun n => n.fiber) cs))
      ∧ (presentSum (fun n => n.sugar) cs = 0
        → (calculate_total_nutrition cs).sugar = none)
      ∧ (presentSum (fun n => n.sugar) cs ≠ 0
        → (calculate_total_nutrition cs).sugar
            = some (presentSum (fun n => n.sugar) cs))
      ∧ (presentSum (fun n => n.sodium) cs = 0
        → (calculate_total_nutrition cs).sodium = none)
      ∧ (presentSum (fun n => n.sodium) cs ≠ 0
        → (calculate_total_nutrition cs).sodium
            = some (presentSum (fun n => n.sodium) cs)) := by
  have hfib : (calculate_total_nutrition cs).fiber
      = if presentSum (fun n => n.fiber) cs = 0 then none
        else some (presentSum (fun n => n.fiber) cs) := by
    simp [calculate_total_nutrition, foldl_addComponent_eq_addN,
      foldl_addN_fiber, List.map_map, Function.comp_def,
      presentSum_eq_getD_sum]
  have hsug : (calculate_total_nutrition cs).sugar
      = if presentSum (fun n => n.sugar) cs = 0 then none
        else some (presentSum (fun n => n.sugar) cs) := by
    simp [calculate_total_nutrition, foldl_addComponent_eq_addN,
      foldl_addN_sugar, List.map_map, Function.comp_def,
      presentSum_eq_getD_sum]
  have hsod : (calculate_total_nutrition cs).sodium
      = if presentSum (fun n => n.sodium) cs = 0 then none
        else some (presentSum (fun n => n.sodium) cs) := by
    simp [calculate_total_nutrition, foldl_addComponent_eq_addN,
      foldl_addN_sodium, List.map_map, Function.comp_def,
      presentSum_eq_getD_sum]
  refine ⟨fun h => ?_, fun h => ?_, fun h => ?_, fun h => ?_,
    fun h => ?_, fun h => ?_⟩ <;>
    simp [hfib, hsug, hsod, h]

def c2a : AnalyseFoodImage.FoodComponent :=
  { name := Json.str "Lentils", item_type := ItemType.meal_component,
    quantity := 50, unit := Json.str "g",
    claude_estimate :=
      { calories := 180, protein := 12, carbs := 30, fat := 1,
        fiber := some 3, sodium := some 2 } }

def c2b : AnalyseFoodImage.FoodComponent :=
  { name := Json.str "Butter", item_type := ItemType.meal_component,
    quantity := 10, unit := Json.str "g",
    claude_estimate :=
      { calories := 72, protein := 0, carbs := 0, fat := 8,
        sodium := some 5 } }

theorem C2_amended_witness :
    (calculate_total_nutrition [c2a, c2b]).fiber = some 3
      ∧ (calculate_total_nutrition [c2a, c2b]).sugar = none
      ∧ (calculate_total_nutrition [c2a, c2b]).sodium = some 7 := by
  have h := C2_amended_optional_field_totals [c2a, c2b]
  refine ⟨?_, ?_, ?_⟩
  · have hc := h.2.1 (by norm_num [presentSum, c2a, c2b, effectiveNutrition])
    simpa [presentSum, c2a, c2b, effectiveNutrition] using hc
  · exact h.2.2.1 (by norm_num [presentSum, c2a, c2b, effectiveNutrition])
  · have hc := h.2.2.2.2.2
      (by norm_num [presentSum, c2a, c2b, effectiveNutrition])
    rw [hc]
    congr 1
    norm_num [presentSum, c2a, c2b, effectiveNutrition]

/-- C10: the aggregator's use of the claude estimate is per-component, on
every list — mixed lists included. First conjunct: replacing the claude
estimate by anything at all on exactly those components whose resolved
nutrition is present leaves the computed total unchanged — the estimate
never contributes to the total for a component that has resolved nutrition,
regardless of the other components. Second conjunct: giving each component
whose resolved nutrition is absent a resolved record equal to its own
claude estimate leaves the total unchanged — for such a component the
aggregator sums exactly the claude estimate, regardless of the other
components. -/
theorem C10_resolved_over_estimate :
    (∀ (cs : List AnalyseFoodImage.FoodComponent)
       (est : AnalyseFoodImage.FoodComponent → AnalyseFoodImage.NutritionData),
       calculate_total_nutrition
           (cs.map (fun c =>
             if c.nutrition.isSome then { c with claude_estimate := est c }
             else c))
         = calculate_total_nutrition cs)
      ∧ (∀ cs : List AnalyseFoodImage.FoodComponent,
       calculate_total_nutrition
           (cs.map (fun c =>
             if c.nutrition.isSome then c
             else { c with nutrition := some c.claude_estimate }))
         = calculate_total_nutrition cs) := by
  have key : ∀ g : AnalyseFoodImage.FoodComponent →
        AnalyseFoodImage.FoodComponent,
      (∀ c, effectiveNutrition (g c) = effectiveNutrition c) →
      ∀ cs : List AnalyseFoodImage.FoodComponent,
        calculate_total_nutrition (cs.map g) = calculate_total_nutrition cs := by
    intro g hg cs
    have hm : (cs.map g).map effectiveNutrition = cs.map effectiveNutrition := by
      rw [List.map_map]
      exact List.map_congr_left (fun c _ => hg c)
    simp only [calculate_total_nutrition]
    rw [foldl_addComponent_eq_addN, foldl_addComponent_eq_addN, hm]
  constructor
  · intro cs est
    refine key _ (fun c => ?_) cs
    cases hn : c.nutrition with
    | none => simp [hn]
    | some n => simp [effectiveNutrition, hn]
  · intro cs
    refine key _ (fun c => ?_) cs
    cases hn : c.nutrition with
    | none => simp [effectiveNutrition, hn]
    | some n => simp [hn]

/- The bracket characters removed by the two re.sub calls in
_clean_component_name. -/
def bracketChar (c : Char) : Bool :=
  c = '(' || c = '[' || c = '{' || c = ')' || c = ']' || c = '}'

/- Helper for str.split(): walk the characters keeping the reversed current
word; a whitespace character closes the current word when it is nonempty. -/
def splitWsAux : List Char → List Char → List (List Char)
  | [], cur => if cur.isEmpty then [] else [cur.reverse]
  | c :: cs, cur =>
    if isPySpace c then
      if cur.isEmpty then splitWsAux cs []
      else cur.reverse :: splitWsAux cs []
    else splitWsAux cs (c :: cur)

/- Python str.split() with no argument: split on runs of whitespace,
discarding empty pieces. -/
def splitWs (l : List Char) : List (List Char) :=
  splitWsAux l []

/- Python " ".join(words): the words separated by single spaces. -/
def joinSpace : List (List Char) → List Char
  | [] => []
  | [w] => w
  | w :: ws => w ++ ' ' :: joinSpace ws

/- Python str.capitalize(): first character upper-cased, all remaining
characters lower-cased. -/
def pyCapList : List Char → List Char
  | [] => []
  | c :: cs => c.toUpper :: cs.map Char.toLower

/- A JSON value that must be a string (re.sub raises TypeError on anything
else). -/
def asString : Json → Option String
  | Json.str s => some s
  | _ => none

/- A JSON value that must be an object, for code that calls dict methods on
it (anything else raises). -/
def asDict : Json → Option PyDict
  | Json.obj kvs => some kvs
  | _ => none

/- The values produced by iterating a JSON-decoded Python value with a for
loop: lists yield their elements, strings their one-character substrings,
dicts their keys; numbers, booleans and None raise TypeError. -/
def iterableItems : Json → Option (List Json)
  | Json.arr l => some l
  | Json.str s => some (s.toList.map (fun c => Json.str (String.mk [c])))
  | Json.obj kvs => some (kvs.map (fun p => Json.str p.1))
  | _ => none

namespace FoodAnalysis

/- NutritionData from food-analysis-lambda/service/models.py: core macros
only. -/
structure NutritionData where
  calories : ℚ
  protein : ℚ
  carbs : ℚ
  fat : ℚ
deriving Repr, DecidableEq

/- FoodComponent from food-analysis-lambda/service/models.py. The dataclass
does not enforce its annotations: name, unit, brand, barcode hold whatever
value was supplied. -/
structure FoodComponent where
  name : Json
  item_type : ItemType
  quantity : ℚ
  unit : Json
  per_unit_nutrition : NutritionData
  claude_estimate : NutritionData
  brand : Json := Json.null
  barcode : Json := Json.null
  nutrition : Option NutritionData := none
  source : Option NutritionSource := none
  confidence : Option ConfidenceLevel := none
deriving Repr

/- ClaudeAnalysisResult from food-analysis-lambda/service/models.py. -/
structure ClaudeAnalysisResult where
  dish_name : Json
  item_type : ItemType
  components : List FoodComponent
  total_claude_estimate : NutritionData
  raw_response : Option String := none
deriving Repr

/- _clean_component_name from
food-analysis-lambda/service/claude_vision_service.py, lines 157-175:
remove bracket characters, collapse whitespace with a split and join, strip
and capitalize. -/
def _clean_component_name (name : String) : String :=
  let cs := name.toList.filter (fun c => !bracketChar c)
  let joined := joinSpace (splitWs cs)
  String.mk (pyCapList (stripPyWs joined))

/- create_nutrition_data_from_dict from
food-analysis-lambda/service/models.py, lines 82-89: the four macros, each
defaulting to 0 when its key is absent. -/
def create_nutrition_data_from_dict (data : PyDict) : Option NutritionData :=
  Option.bind (pyFloatJson ((dGet data "calories").getD (Json.num 0))) fun calories =>
  Option.bind (pyFloatJson ((dGet data "protein").getD (Json.num 0))) fun protein =>
  Option.bind (pyFloatJson ((dGet data "carbs").getD (Json.num 0))) fun carbs =>
  Option.bind (pyFloatJson ((dGet data "fat").getD (Json.num 0))) fun fat =>
  some { calories := calories, protein := protein, carbs := carbs, fat := fat }

/- create_food_component_from_dict from
food-analysis-lambda/service/models.py, lines 92-106. No check is made on
the sign of quantity nor on the unit value. -/
def create_food_component_from_dict (data : PyDict) : Option FoodComponent :=
  Option.bind (dGet data "name") fun nv =>
  Option.bind (dGet data "item_type") fun itv =>
  Option.bind (ItemType.ofJson itv) fun item_type =>
  Option.bind (dGet data "quantity") fun qv =>
  Option.bind (pyFloatJson qv) fun quantity =>
  Option.bind (dGet data "unit") fun uv =>
  Option.bind (dGet data "per_unit_nutrition") fun puv =>
  Option.bind (asDict puv) fun pud =>
  Option.bind (create_nutrition_data_from_dict pud) fun per_unit_nutrition =>
  Option.bind (dGet data "claude_estimate") fun cev =>
  Option.bind (asDict cev) fun ced =>
  Option.bind (create_nutrition_data_from_dict ced) fun claude_estimate =>
  Option.bind
    (if jsonTruthy (dGetPy data "nutrition") then
      Option.bind (asDict (dGetPy data "nutrition")) fun nd =>
      Option.bind (create_nutrition_data_from_dict nd) fun n =>
      some (some n)
    else some none) fun nutrition =>
  Option.bind
    (if jsonTruthy (dGetPy data "source") then
      (NutritionSource.ofJson (dGetPy data "source")).map some
    else some none) fun source =>
  Option.bind
    (if jsonTruthy (dGetPy data "confidence") then
      (ConfidenceLevel.ofJson (dGetPy data "confidence")).map some
    else some none) fun confidence =>
  some { name := nv, item_type := item_type, quantity := quantity,
         unit := uv, per_unit_nutrition := per_unit_nutrition,
         claude_estimate := claude_estimate,
         brand := dGetPy data "brand", barcode := dGetPy data "barcode",
         nutrition := nutrition, source := source, confidence := confidence }

/- The body of the component loop in _parse_claude_response
(food-analysis-lambda/service/claude_vision_service.py, lines 200-238):
coerce quantity, clean the name, read the four per-unit fields, multiply by
quantity and round half-to-even for the component total. There is no
positivity check on quantity and no check at all on unit. -/
def parseComponent (comp_data : Json) : Option FoodComponent :=
  Option.bind (asDict comp_data) fun d =>
  Option.bind (dGet d "quantity") fun qv =>
  Option.bind (pyFloatJson qv) fun quantity =>
  Option.bind (dGet d "name") fun nv =>
  Option.bind (asString nv) fun nameStr =>
  let clean_name := _clean_component_name nameStr
  Option.bind (dGet d "caloriesPerUnit") fun cv =>
  Option.bind (pyFloatJson cv) fun calories =>
  Option.bind (dGet d "proteinPerUnit") fun pv =>
  Option.bind (pyFloatJson pv) fun protein =>
  Option.bind (dGet d "carbsPerUnit") fun cbv =>
  Option.bind (pyFloatJson cbv) fun carbs =>
  Option.bind (dGet d "fatPerUnit") fun fv =>
  Option.bind (pyFloatJson fv) fun fat =>
  let per_unit_nutrition : NutritionData :=
    { calories := calories, protein := protein, carbs := carbs, fat := fat }
  let comp_calories := pyRound (per_unit_nutrition.calories * quantity)
  let comp_protein := pyRound (per_unit_nutrition.protein * quantity)
  let comp_carbs := pyRound (per_unit_nutrition.carbs * quantity)
  let comp_fat := pyRound (per_unit_nutrition.fat * quantity)
  let total_nutrition : NutritionData :=
    { calories := (comp_calories : ℚ), protein := (comp_protein : ℚ),
      carbs := (comp_carbs : ℚ), fat := (comp_fat : ℚ) }
  Option.bind (dGet d "unit") fun uv =>
  some { name := Json.str clean_name, item_type := ItemType.meal_component,
         quantity := quantity, unit := uv,
         per_unit_nutrition := per_unit_nutrition,
         claude_estimate := total_nutrition }

/- The component loop of _parse_claude_response: parse each item in order,
raising (none) at the first failure. -/
def parseComponents : List Json → Option (List FoodComponent)
  | [] => some []
  | x :: xs =>
    Option.bind (parseComponent x) fun c =>
    Option.bind (parseComponents xs) fun rest =>
    some (c :: rest)

/- _parse_claude_response from
food-analysis-lambda/service/claude_vision_service.py, lines 177-260. The
source accumulates the four totals inside the same loop that builds the
component list; the summands are exactly the stored claude_estimate fields,
so the totals are their sums. -/
def _parse_claude_response (response_json : PyDict) (raw_response : String) :
    Option ClaudeAnalysisResult :=
  Option.bind (iterableItems ((dGet response_json "components").getD (Json.arr [])))
    fun items =>
  Option.bind (parseComponents items) fun components =>
  let total_estimate : NutritionData :=
    { calories := (components.map (fun c => c.claude_estimate.calories)).sum
      protein := (components.map (fun c => c.claude_estimate.protein)).sum
      carbs := (components.map (fun c => c.claude_estimate.carbs)).sum
      fat := (components.map (fun c => c.claude_estimate.fat)).sum }
  Option.bind (dGet response_json "dishName") fun dn =>
  Option.bind (dGet response_json "itemType") fun itv =>
  Option.bind (ItemType.ofJson itv) fun item_type =>
  some { dish_name := dn, item_type := item_type, components := components,
         total_claude_estimate := total_estimate,
         raw_response := some raw_response }

end FoodAnalysis

namespace AnalyseFoodImage

/- The body of the component loop in _parse_claude_response
(analyse_food_image_lambda/service/claude_vision_service.py, lines
188-200). -/
def parseComponent (comp_data : Json) : Option FoodComponent :=
  Option.bind (asDict comp_data) fun d =>
  Option.bind (dGet d "name") fun nv =>
  Option.bind (dGet d "item_type") fun itv =>
  Option.bind (ItemType.ofJson itv) fun item_type =>
  Option.bind (dGet d "quantity") fun qv =>
  Option.bind (pyFloatJson qv) fun quantity =>
  Option.bind (dGet d "unit") fun uv =>
  Option.bind (dGet d "claude_estimate") fun cev =>
  Option.bind (asDict cev) fun ced =>
  Option.bind (create_nutrition_data_from_dict ced) fun claude_estimate =>
  some { name := nv, item_type := item_type, quantity := quantity,
         unit := uv, claude_estimate := claude_estimate,
         brand := dGetPy d "brand", barcode := dGetPy d "barcode" }

/- The component loop of _parse_claude_response: parse each item in order,
raising (none) at the first failure. -/
def parseComponents : List Json → Option (List FoodComponent)
  | [] => some []
  | x :: xs =>
    Option.bind (parseComponent x) fun c =>
    Option.bind (parseComponents xs) fun rest =>
    some (c :: rest)

/- _parse_claude_response from
analyse_food_image_lambda/service/claude_vision_service.py, lines
173-213. -/
def _parse_claude_response (response_json : PyDict) (raw_response : String) :
    Option ClaudeAnalysisResult :=
  Option.bind (iterableItems ((dGet response_json "components").getD (Json.arr [])))
    fun items =>
  Option.bind (parseComponents items) fun components =>
  Option.bind (dGet response_json "total_claude_estimate") fun tv =>
  Option.bind (asDict tv) fun td =>
  Option.bind (create_nutrition_data_from_dict td) fun total_estimate =>
  Option.bind (dGet response_json "dish_name") fun dn =>
  Option.bind (dGet response_json "item_type") fun itv2 =>
  Option.bind (ItemType.ofJson itv2) fun item_type =>
  some { dish_name := dn, item_type := item_type, components := components,
         total_claude_estimate := total_estimate,
         raw_response := some raw_response }

end AnalyseFoodImage

lemma rat_floor_eq_intFloor (q : ℚ) : q.floor = ⌊q⌋ := by
  rw [Rat.floor_def', Rat.floor_def]

/- pyRound always lands on a nearest integer: its distance to the argument
is at most one half. -/
lemma pyRound_nearest (q : ℚ) : |(pyRound q : ℚ) - q| ≤ 1 / 2 := by
  have h1 : ((⌊q⌋ : ℤ) : ℚ) ≤ q := Int.floor_le q
  have h2 : q < ((⌊q⌋ : ℤ) : ℚ) + 1 := Int.lt_floor_add_one q
  unfold pyRound
  rw [rat_floor_eq_intFloor]
  split_ifs <;> (rw [abs_le]; push_cast; constructor <;> linarith)

lemma parseComponent_fields (v : Json) (c : FoodAnalysis.FoodComponent)
    (h : FoodAnalysis.parseComponent v = some c) :
    c.claude_estimate.calories
        = ((pyRound (c.per_unit_nutrition.calories * c.quantity) : ℤ) : ℚ)
      ∧ c.claude_estimate.protein
        = ((pyRound (c.per_unit_nutrition.protein * c.quantity) : ℤ) : ℚ)
      ∧ c.claude_estimate.carbs
        = ((pyRound (c.per_unit_nutrition.carbs * c.quantity) : ℤ) : ℚ)
      ∧ c.claude_estimate.fat
        = ((pyRound (c.per_unit_nutrition.fat * c.quantity) : ℤ) : ℚ) := by
  simp only [FoodAnalysis.parseComponent, Option.bind_eq_some,
    Option.some.injEq] at h
  obtain ⟨d, hd, qv, hqv, q, hq, nv, hnv, ns, hns, cv, hcv, cal, hcal,
    pv, hpv, pro, hpro, cbv, hcbv, cb, hcb, fv, hfv, f, hf, uv, huv, hc⟩ := h
  subst hc
  exact ⟨rfl, rfl, rfl, rfl⟩

lemma parseComponents_mem (xs : List Json)
    (cs : List FoodAnalysis.FoodComponent)
    (h : FoodAnalysis.parseComponents xs = some cs) :
    ∀ c ∈ cs, ∃ v, FoodAnalysis.parseComponent v = some c := by
  induction xs generalizing cs with
  | nil =>
    simp only [FoodAnalysis.parseComponents, Option.some.injEq] at h
    subst h
    intro c hc
    simp at hc
  | cons x xs ih =>
    simp only [FoodAnalysis.parseComponents, Option.bind_eq_some,
      Option.some.injEq] at h
    obtain ⟨c0, hc0, rest, hrest, hcs⟩ := h
    subst hcs
    intro c hc
    rcases List.mem_cons.mp hc with hceq | hcm
    · exact ⟨x, hceq ▸ hc0⟩
    · exact ih rest hrest c hcm

lemma parseComponents_length (xs : List Json)
    (cs : List FoodAnalysis.FoodComponent)
    (h : FoodAnalysis.parseComponents xs = some cs) :
    cs.length = xs.length := by
  induction xs generalizing cs with
  | nil =>
    simp only [FoodAnalysis.parseComponents, Option.some.injEq] at h
    subst h
    rfl
  | cons x xs ih =>
    simp only [FoodAnalysis.parseComponents, Option.bind_eq_some,
      Option.some.injEq] at h
    obtain ⟨c0, hc0, rest, hrest, hcs⟩ := h
    subst hcs
    simp [ih rest hrest]

lemma parse_response_components (d : PyDict) (raw : String)
    (res : FoodAnalysis.ClaudeAnalysisResult)
    (h : FoodAnalysis._parse_claude_response d raw = some res) :
    ∃ items, iterableItems ((dGet d "components").getD (Json.arr []))
        = some items
      ∧ FoodAnalysis.parseComponents items = some res.components := by
  simp only [FoodAnalysis._parse_claude_response, Option.bind_eq_some,
    Option.some.injEq] at h
  obtain ⟨items, hit, comps, hcomps, dn, hdn, itv, hitv, it, hit2, hres⟩ := h
  refine ⟨items, hit, ?_⟩
  rw [← hres]
  exact hcomps

/-- C6: whenever the per-unit parser succeeds, every component's stored
absolute nutrition (claude_estimate) has each required field equal to
round(rate.field * quantity) under Python rounding, which is a nearest
integer (distance at most one half from the exact product). -/
theorem C6_per_unit_rounding (response_json : PyDict) (raw : String)
    (res : FoodAnalysis.ClaudeAnalysisResult)
    (h : FoodAnalysis._parse_claude_response response_json raw = some res) :
    ∀ c ∈ res.components,
      (c.claude_estimate.calories
          = ((pyRound (c.per_unit_nutrition.calories * c.quantity) : ℤ) : ℚ)
        ∧ c.claude_estimate.protein
          = ((pyRound (c.per_unit_nutrition.protein * c.quantity) : ℤ) : ℚ)
        ∧ c.claude_estimate.carbs
          = ((pyRound (c.per_unit_nutrition.carbs * c.quantity) : ℤ) : ℚ)
        ∧ c.claude_estimate.fat
          = ((pyRound (c.per_unit_nutrition.fat * c.quantity) : ℤ) : ℚ))
      ∧ (|c.claude_estimate.calories
            - c.per_unit_nutrition.calories * c.quantity| ≤ 1 / 2
        ∧ |c.claude_estimate.protein
            - c.per_unit_nutrition.protein * c.quantity| ≤ 1 / 2
        ∧ |c.claude_estimate.carbs
            - c.per_unit_nutrition.carbs * c.quantity| ≤ 1 / 2
        ∧ |c.claude_estimate.fat
            - c.per_unit_nutrition.fat * c.quantity| ≤ 1 / 2) := by
  intro c hc
  obtain ⟨items, hit, hcomps⟩ := parse_response_components _ _ _ h
  obtain ⟨v, hv⟩ := parseComponents_mem _ _ hcomps c hc
  obtain ⟨h1, h2, h3, h4⟩ := parseComponent_fields _ _ hv
  refine ⟨⟨h1, h2, h3, h4⟩, ?_, ?_, ?_, ?_⟩
  · rw [h1]; exact pyRound_nearest _
  · rw [h2]; exact pyRound_nearest _
  · rw [h3]; exact pyRound_nearest _
  · rw [h4]; exact pyRound_nearest _

def c6json : PyDict :=
  [("dishName", Json.str "Grilled chicken"),
   ("itemType", Json.str "meal"),
   ("components", Json.arr [Json.obj
     [("name", Json.str "Chicken breast"),
      ("quantity", Json.num 150),
      ("unit", Json.str "g"),
      ("caloriesPerUnit", Json.num 165),
      ("proteinPerUnit", Json.num 31),
      ("carbsPerUnit", Json.num 0),
      ("fatPerUnit", Json.num (18 / 5))]])]

def c6comp : FoodAnalysis.FoodComponent :=
  { name := Json.str "Chicken breast", item_type := ItemType.meal_component,
    quantity := 150, unit := Json.str "g",
    per_unit_nutrition :=
      { calories := 165, protein := 31, carbs := 0, fat := 18 / 5 },
    claude_estimate :=
      { calories := 24750, protein := 4650, carbs := 0, fat := 540 } }

def c6res : FoodAnalysis.ClaudeAnalysisResult :=
  { dish_name := Json.str "Grilled chicken", item_type := ItemType.meal,
    components := [c6comp],
    total_claude_estimate :=
      { calories := 24750, protein := 4650, carbs := 0, fat := 540 },
    raw_response := some "raw" }

theorem C6_witness :
    FoodAnalysis._parse_claude_response c6json "raw" = some c6res
      ∧ c6comp.claude_estimate.calories
        = ((pyRound (c6comp.per_unit_nutrition.calories * c6comp.quantity) : ℤ) : ℚ)
      ∧ c6comp.claude_estimate
        = { calories := 24750, protein := 4650, carbs := 0, fat := 540 } := by
  have h0 : FoodAnalysis._parse_claude_response c6json "raw" = some c6res := by
    with_unfolding_all rfl
  refine ⟨h0, ?_, rfl⟩
  exact ((C6_per_unit_rounding c6json "raw" c6res h0 c6comp (by simp [c6res])).1).1

def c7json : PyDict :=
  [("dishName", Json.str "Strange plate"),
   ("itemType", Json.str "meal"),
   ("components", Json.arr
     [Json.obj
       [("name", Json.str "Ghost pepper"),
        ("quantity", Json.num 0),
        ("unit", Json.str ""),
        ("caloriesPerUnit", Json.num 5),
        ("proteinPerUnit", Json.num 0),
        ("carbsPerUnit", Json.num 1),
        ("fatPerUnit", Json.num 0)],
      Json.obj
       [("name", Json.str "Antimatter rice"),
        ("quantity", Json.num (-5)),
        ("unit", Json.str ""),
        ("caloriesPerUnit", Json.num 2),
        ("proteinPerUnit", Json.num 1),
        ("carbsPerUnit", Json.num 0),
        ("fatPerUnit", Json.num 0)]])]

def c7res : FoodAnalysis.ClaudeAnalysisResult :=
  { dish_name := Json.str "Strange plate", item_type := ItemType.meal,
    components :=
      [{ name := Json.str "Ghost pepper",
         item_type := ItemType.meal_component,
         quantity := 0, unit := Json.str "",
         per_unit_nutrition :=
           { calories := 5, protein := 0, carbs := 1, fat := 0 },
         claude_estimate :=
           { calories := 0, protein := 0, carbs := 0, fat := 0 } },
       { name := Json.str "Antimatter rice",
         item_type := ItemType.meal_component,
         quantity := -5, unit := Json.str "",
         per_unit_nutrition :=
           { calories := 2, protein := 1, carbs := 0, fat := 0 },
         claude_estimate :=
           { calories := -10, protein := -5, carbs := 0, fat := 0 } }],
    total_claude_estimate :=
      { calories := -10, protein := -5, carbs := 0, fat := 0 },
    raw_response := some "raw" }

def c7cfdict : PyDict :=
  [("name", Json.str "Nothing burger"),
   ("item_type", Json.str "meal_component"),
   ("quantity", Json.num 0),
   ("unit", Json.str ""),
   ("per_unit_nutrition", Json.obj []),
   ("claude_estimate", Json.obj [])]

def c7cfres : FoodAnalysis.FoodComponent :=
  { name := Json.str "Nothing burger", item_type := ItemType.meal_component,
    quantity := 0, unit := Json.str "",
    per_unit_nutrition := { calories := 0, protein := 0, carbs := 0, fat := 0 },
    claude_estimate := { calories := 0, protein := 0, carbs := 0, fat := 0 } }

/-- C7 counterexample: a component dict with quantity 0, a component dict
with quantity -5, and empty-string units is processed successfully — both by
the per-unit parser and by create_food_component_from_dict — producing
components, with no MalformedFieldError (no such error exists in the code)
and no failure of any kind. -/
theorem C7_counterexample :
    FoodAnalysis._parse_claude_response c7json "raw" = some c7res
      ∧ (c7res.components.map (fun c => c.quantity)) = [0, -5]
      ∧ (c7res.components.map (fun c => c.unit))
        = [Json.str "", Json.str ""]
      ∧ FoodAnalysis.create_food_component_from_dict c7cfdict = some c7cfres
      ∧ c7cfres.quantity = 0 := by
  refine ⟨?_, rfl, rfl, ?_, rfl⟩
  · with_unfolding_all rfl
  · with_unfolding_all rfl

/-- C7 amended: component processing validates neither the sign of quantity
nor the unit. Any quantity value coercible to a number — zero and negative
included — and any unit value whatsoever (the empty string included) yield a
component; processing fails (with a built-in KeyError/TypeError/ValueError,
there being no MalformedFieldError in the code) exactly on missing keys and
non-coercible values, as in the second conjunct where quantity is null. -/
theorem C7_amended_no_quantity_or_unit_validation :
    (∀ (n : String) (qj u cal pro car fa : Json) (q cv pv cbv fv : ℚ),
      pyFloatJson qj = some q → pyFloatJson cal = some cv →
      pyFloatJson pro = some pv → pyFloatJson car = some cbv →
      pyFloatJson fa = some fv →
      FoodAnalysis.parseComponent (Json.obj
          [("name", Json.str n), ("quantity", qj), ("unit", u),
           ("caloriesPerUnit", cal), ("proteinPerUnit", pro),
           ("carbsPerUnit", car), ("fatPerUnit", fa)])
        = some { name := Json.str (FoodAnalysis._clean_component_name n),
                 item_type := ItemType.meal_component,
                 quantity := q, unit := u,
                 per_unit_nutrition :=
                   { calories := cv, protein := pv, carbs := cbv, fat := fv },
                 claude_estimate :=
                   { calories := ((pyRound (cv * q) : ℤ) : ℚ),
                     protein := ((pyRound (pv * q) : ℤ) : ℚ),
                     carbs := ((pyRound (cbv * q) : ℤ) : ℚ),
                     fat := ((pyRound (fv * q) : ℤ) : ℚ) } })
      ∧ (∀ (n : String) (u cal pro car fa qj : Json),
      pyFloatJson qj = none →
      FoodAnalysis.parseComponent (Json.obj
          [("name", Json.str n), ("quantity", qj), ("unit", u),
           ("caloriesPerUnit", cal), ("proteinPerUnit", pro),
           ("carbsPerUnit", car), ("fatPerUnit", fa)])
        = none) := by
  constructor
  · intro n qj u cal pro car fa q cv pv cbv fv hq hcal hpro hcar hfa
    have hd0 : asDict (Json.obj
        [("name", Json.str n), ("quantity", qj), ("unit", u),
         ("caloriesPerUnit", cal), ("proteinPerUnit", pro),
         ("carbsPerUnit", car), ("fatPerUnit", fa)]) = some
        [("name", Json.str n), ("quantity", qj), ("unit", u),
         ("caloriesPerUnit", cal), ("proteinPerUnit", pro),
         ("carbsPerUnit", car), ("fatPerUnit", fa)] := rfl
    have h1 : dGet
        [("name", Json.str n), ("quantity", qj), ("unit", u),
         ("caloriesPerUnit", cal), ("proteinPerUnit", pro),
         ("carbsPerUnit", car), ("fatPerUnit", fa)] "quantity" = some qj := rfl
    have h2 : dGet
        [("name", Json.str n), ("quantity", qj), ("unit", u),
         ("caloriesPerUnit", cal), ("proteinPerUnit", pro),
         ("carbsPerUnit", car), ("fatPerUnit", fa)] "name"
        = some (Json.str n) := rfl
    have h3 : dGet
        [("name", Json.str n), ("quantity", qj), ("unit", u),
         ("caloriesPerUnit", cal), ("proteinPerUnit", pro),
         ("carbsPerUnit", car), ("fatPerUnit", fa)] "unit" = some u := rfl
    have h4 : dGet
        [("name", Json.str n), ("quantity", qj), ("unit", u),
         ("caloriesPerUnit", cal), ("proteinPerUnit", pro),
         ("carbsPerUnit", car), ("fatPerUnit", fa)] "caloriesPerUnit"
        = some cal := rfl
    have h5 : dGet
        [("name", Json.str n), ("quantity", qj), ("unit", u),
         ("caloriesPerUnit", cal), ("proteinPerUnit", pro),
         ("carbsPerUnit", car), ("fatPerUnit", fa)] "proteinPerUnit"
        = some pro := rfl
    have h6 : dGet
        [("name", Json.str n), ("quantity", qj), ("unit", u),
         ("caloriesPerUnit", cal), ("proteinPerUnit", pro),
         ("carbsPerUnit", car), ("fatPerUnit", fa)] "carbsPerUnit"
        = some car := rfl
    have h7 : dGet
        [("name", Json.str n), ("quantity", qj), ("unit", u),
         ("caloriesPerUnit", cal), ("proteinPerUnit", pro),
         ("carbsPerUnit", car), ("fatPerUnit", fa)] "fatPerUnit"
        = some fa := rfl
    simp only [FoodAnalysis.parseComponent, hd0, h1, h2, h3, h4, h5, h6, h7,
      hq, hcal, hpro, hcar, hfa, asString, Option.some_bind]
  · intro n u cal pro car fa qj hq
    have hd0 : asDict (Json.obj
        [("name", Json.str n), ("quantity", qj), ("unit", u),
         ("caloriesPerUnit", cal), ("proteinPerUnit", pro),
         ("carbsPerUnit", car), ("fatPerUnit", fa)]) = some
        [("name", Json.str n), ("quantity", qj), ("unit", u),
         ("caloriesPerUnit", cal), ("proteinPerUnit", pro),
         ("carbsPerUnit", car), ("fatPerUnit", fa)] := rfl
    have h1 : dGet
        [("name", Json.str n), ("quantity", qj), ("unit", u),
         ("caloriesPerUnit", cal), ("proteinPerUnit", pro),
         ("carbsPerUnit", car), ("fatPerUnit", fa)] "quantity" = some qj := rfl
    simp only [FoodAnalysis.parseComponent, hd0, h1, hq, Option.some_bind,
      Option.none_bind]

theorem C7_amended_witness :
    FoodAnalysis.parseComponent (Json.obj
        [("name", Json.str "Free air"), ("quantity", Json.num 0),
         ("unit", Json.str ""),
         ("caloriesPerUnit", Json.num 5), ("proteinPerUnit", Json.num 0),
         ("carbsPerUnit", Json.num 1), ("fatPerUnit", Json.num 0)])
      = some { name := Json.str (FoodAnalysis._clean_component_name "Free air"),
               item_type := ItemType.meal_component,
               quantity := 0, unit := Json.str "",
               per_unit_nutrition :=
                 { calories := 5, protein := 0, carbs := 1, fat := 0 },
               claude_estimate :=
                 { calories := ((pyRound ((5 : ℚ) * 0) : ℤ) : ℚ),
                   protein := ((pyRound ((0 : ℚ) * 0) : ℤ) : ℚ),
                   carbs := ((pyRound ((1 : ℚ) * 0) : ℤ) : ℚ),
                   fat := ((pyRound ((0 : ℚ) * 0) : ℤ) : ℚ) } }
      ∧ FoodAnalysis.parseComponent (Json.obj
        [("name", Json.str "Broken"), ("quantity", Json.null),
         ("unit", Json.str "g"),
         ("caloriesPerUnit", Json.num 5), ("proteinPerUnit", Json.num 0),
         ("carbsPerUnit", Json.num 1), ("fatPerUnit", Json.num 0)])
      = none :=
  ⟨C7_amended_no_quantity_or_unit_validation.1 "Free air" (Json.num 0)
      (Json.str "") (Json.num 5) (Json.num 0) (Json.num 1) (Json.num 0)
      0 5 0 1 0 rfl rfl rfl rfl rfl,
   C7_amended_no_quantity_or_unit_validation.2 "Broken" (Json.str "g")
      (Json.num 5) (Json.num 0) (Json.num 1) (Json.num 0) Json.null rfl⟩

/-- C5: whenever the normalizer create_nutrition_data_from_dict succeeds,
each required field defaults to 0 when its key is absent, and each optional
field (fiber, sugar, sodium) is present in the record exactly when the
source value is truthy — so a source value of 0 yields an absent field — and
carries the float-coerced source value when present. -/
theorem C5_normalizer_defaults_and_truthiness (data : PyDict)
    (r : AnalyseFoodImage.NutritionData)
    (h : AnalyseFoodImage.create_nutrition_data_from_dict data = some r) :
    (dGet data "calories" = none → r.calories = 0)
      ∧ (dGet data "protein" = none → r.protein = 0)
      ∧ (dGet data "carbs" = none → r.carbs = 0)
      ∧ (dGet data "fat" = none → r.fat = 0)
      ∧ r.fiber.isSome = jsonTruthy (dGetPy data "fiber")
      ∧ r.sugar.isSome = jsonTruthy (dGetPy data "sugar")
      ∧ r.sodium.isSome = jsonTruthy (dGetPy data "sodium")
      ∧ (∀ x, r.fiber = some x → pyFloatJson (dGetPy data "fiber") = some x)
      ∧ (∀ x, r.sugar = some x → pyFloatJson (dGetPy data "sugar") = some x)
      ∧ (∀ x, r.sodium = some x
          → pyFloatJson (dGetPy data "sodium") = some x) := by
  simp only [AnalyseFoodImage.create_nutrition_data_from_dict,
    Option.bind_eq_some, Option.some.injEq] at h
  obtain ⟨cal, hcal, pro, hpro, cb, hcb, f, hf, fib, hfib, sug, hsug,
    sod, hsod, hr⟩ := h
  subst hr
  have hopt : ∀ (k : String) (o : Option ℚ),
      AnalyseFoodImage.optField data k = some o →
      (o.isSome = jsonTruthy (dGetPy data k)
        ∧ ∀ x, o = some x → pyFloatJson (dGetPy data k) = some x) := by
    intro k o ho
    unfold AnalyseFoodImage.optField at ho
    by_cases ht : jsonTruthy (dGetPy data k)
    · rw [if_pos ht] at ho
      obtain ⟨y, hy, hoy⟩ := Option.map_eq_some'.mp ho
      constructor
      · rw [← hoy, ht]
        rfl
      · intro x hx
        rw [← hoy] at hx
        rw [hy]
        exact hx
    · rw [if_neg ht] at ho
      obtain rfl : (none : Option ℚ) = o := Option.some_inj.mp ho
      have ht' : jsonTruthy (dGetPy data k) = false := by
        simpa using ht
      constructor
      · rw [ht']
        rfl
      · intro x hx
        exact absurd hx (Option.noConfusion)
  refine ⟨?_, ?_, ?_, ?_, (hopt _ _ hfib).1, (hopt _ _ hsug).1,
    (hopt _ _ hsod).1, (hopt _ _ hfib).2, (hopt _ _ hsug).2,
    (hopt _ _ hsod).2⟩
  · intro hnone
    rw [hnone] at hcal
    simp only [Option.getD_none, pyFloatJson] at hcal
    exact (Option.some_inj.mp hcal).symm
  · intro hnone
    rw [hnone] at hpro
    simp only [Option.getD_none, pyFloatJson] at hpro
    exact (Option.some_inj.mp hpro).symm
  · intro hnone
    rw [hnone] at hcb
    simp only [Option.getD_none, pyFloatJson] at hcb
    exact (Option.some_inj.mp hcb).symm
  · intro hnone
    rw [hnone] at hf
    simp only [Option.getD_none, pyFloatJson] at hf
    exact (Option.some_inj.mp hf).symm

def c5data : PyDict :=
  [("fiber", Json.num 0), ("sugar", Json.num 3)]

def c5res : AnalyseFoodImage.NutritionData :=
  { calories := 0, protein := 0, carbs := 0, fat := 0,
    fiber := none, sugar := some 3, sodium := none }

theorem C5_witness :
    AnalyseFoodImage.create_nutrition_data_from_dict c5data = some c5res
      ∧ c5res.calories = 0
      ∧ c5res.fiber.isSome = jsonTruthy (dGetPy c5data "fiber")
      ∧ c5res.fiber = none
      ∧ c5res.sugar = some 3 := by
  have h0 : AnalyseFoodImage.create_nutrition_data_from_dict c5data
      = some c5res := rfl
  refine ⟨h0, (C5_normalizer_defaults_and_truthiness c5data c5res h0).1 rfl,
    (C5_normalizer_defaults_and_truthiness c5data c5res h0).2.2.2.2.1,
    rfl, rfl⟩

def c9json : PyDict :=
  [("dishName", Json.str "Empty plate"),
   ("itemType", Json.str "meal"),
   ("components", Json.arr [])]

def c9res : FoodAnalysis.ClaudeAnalysisResult :=
  { dish_name := Json.str "Empty plate", item_type := ItemType.meal,
    components := [],
    total_claude_estimate :=
      { calories := 0, protein := 0, carbs := 0, fat := 0 },
    raw_response := some "raw" }

def c9jsonB : PyDict :=
  [("dish_name", Json.str "Empty bowl"),
   ("item_type", Json.str "meal"),
   ("components", Json.arr []),
   ("total_claude_estimate", Json.obj
     [("calories", Json.num 250), ("protein", Json.num 10),
      ("carbs", Json.num 30), ("fat", Json.num 9)])]

def c9resB : AnalyseFoodImage.ClaudeAnalysisResult :=
  { dish_name := Json.str "Empty bowl", item_type := ItemType.meal,
    components := [],
    total_claude_estimate :=
      { calories := 250, protein := 10, carbs := 30, fat := 9 },
    raw_response := some "raw" }

def c9wjson : PyDict :=
  [("dishName", Json.str "Breakfast"),
   ("itemType", Json.str "meal"),
   ("components", Json.arr
     [Json.obj
       [("name", Json.str "Egg"),
        ("quantity", Json.num 1),
        ("unit", Json.str "pieces"),
        ("caloriesPerUnit", Json.num 100),
        ("proteinPerUnit", Json.num 10),
        ("carbsPerUnit", Json.num 5),
        ("fatPerUnit", Json.num 2)],
      Json.obj
       [("name", Json.str "Toast"),
        ("quantity", Json.num 2),
        ("unit", Json.str "slices"),
        ("caloriesPerUnit", Json.num 50),
        ("proteinPerUnit", Json.num 5),
        ("carbsPerUnit", Json.num 0),
        ("fatPerUnit", Json.num 1)]])]

def c9wres : FoodAnalysis.ClaudeAnalysisResult :=
  { dish_name := Json.str "Breakfast", item_type := ItemType.meal,
    components :=
      [{ name := Json.str "Egg", item_type := ItemType.meal_component,
         quantity := 1, unit := Json.str "pieces",
         per_unit_nutrition :=
           { calories := 100, protein := 10, carbs := 5, fat := 2 },
         claude_estimate :=
           { calories := 100, protein := 10, carbs := 5, fat := 2 } },
       { name := Json.str "Toast", item_type := ItemType.meal_component,
         quantity := 2, unit := Json.str "slices",
         per_unit_nutrition :=
           { calories := 50, protein := 5, carbs := 0, fat := 1 },
         claude_estimate :=
           { calories := 100, protein := 10, carbs := 0, fat := 2 } }],
    total_claude_estimate :=
      { calories := 200, protein := 20, carbs := 5, fat := 4 },
    raw_response := some "raw" }

lemma afi_parseComponents_length (xs : List Json)
    (cs : List AnalyseFoodImage.FoodComponent)
    (h : AnalyseFoodImage.parseComponents xs = some cs) :
    cs.length = xs.length := by
  induction xs generalizing cs with
  | nil =>
    simp only [AnalyseFoodImage.parseComponents, Option.some.injEq] at h
    subst h
    rfl
  | cons x xs ih =>
    simp only [AnalyseFoodImage.parseComponents, Option.bind_eq_some,
      Option.some.injEq] at h
    obtain ⟨c0, hc0, rest, hrest, hcs⟩ := h
    subst hcs
    simp [ih rest hrest]

lemma afi_parse_response_components (d : PyDict) (raw : String)
    (res : AnalyseFoodImage.ClaudeAnalysisResult)
    (h : AnalyseFoodImage._parse_claude_response d raw = some res) :
    ∃ items, iterableItems ((dGet d "components").getD (Json.arr []))
        = some items
      ∧ AnalyseFoodImage.parseComponents items = some res.components := by
  simp only [AnalyseFoodImage._parse_claude_response, Option.bind_eq_some,
    Option.some.injEq] at h
  obtain ⟨items, hit, comps, hcomps, tv, htv, td, htd, te, hte, dn, hdn,
    itv2, hitv2, it, hit2, hres⟩ := h
  refine ⟨items, hit, ?_⟩
  rw [← hres]
  exact hcomps

/-- C9 counterexample: a response whose top-level kind is meal and whose
components array is empty parses successfully — in both deployment variants
— yielding an AnalysisResult of kind Meal with zero components, refuting the
claimed never-empty invariant. -/
theorem C9_counterexample :
    FoodAnalysis._parse_claude_response c9json "raw" = some c9res
      ∧ c9res.item_type = ItemType.meal
      ∧ c9res.components = []
      ∧ AnalyseFoodImage._parse_claude_response c9jsonB "raw" = some c9resB
      ∧ c9resB.item_type = ItemType.meal
      ∧ c9resB.components = [] := by
  refine ⟨?_, rfl, rfl, ?_, rfl, rfl⟩
  · with_unfolding_all rfl
  · with_unfolding_all rfl

/-- C9 amended: a successful parse yields exactly one component per element
of the source components value (an absent key counts as an empty array), in
both deployment variants; in particular a Meal may have zero components —
the parsers enforce no non-emptiness. -/
theorem C9_amended_components_length :
    (∀ (d : PyDict) (raw : String) (res : FoodAnalysis.ClaudeAnalysisResult),
       FoodAnalysis._parse_claude_response d raw = some res →
       res.components.length
         = ((iterableItems
              ((dGet d "components").getD (Json.arr []))).getD []).length)
      ∧ (∀ (d : PyDict) (raw : String)
         (res : AnalyseFoodImage.ClaudeAnalysisResult),
       AnalyseFoodImage._parse_claude_response d raw = some res →
       res.components.length
         = ((iterableItems
              ((dGet d "components").getD (Json.arr []))).getD []).length) := by
  constructor
  · intro d raw res h
    obtain ⟨items, hit, hcomps⟩ := parse_response_components _ _ _ h
    rw [hit, Option.getD_some]
    exact parseComponents_length _ _ hcomps
  · intro d raw res h
    obtain ⟨items, hit, hcomps⟩ := afi_parse_response_components _ _ _ h
    rw [hit, Option.getD_some]
    exact afi_parseComponents_length _ _ hcomps

theorem C9_amended_witness :
    FoodAnalysis._parse_claude_response c9wjson "raw" = some c9wres
      ∧ c9wres.components.length
        = ((iterableItems
            ((dGet c9wjson "components").getD (Json.arr []))).getD []).length
      ∧ c9wres.components.length = 2 := by
  have h0 : FoodAnalysis._parse_claude_response c9wjson "raw"
      = some c9wres := by
    with_unfolding_all rfl
  exact ⟨h0, C9_amended_components_length.1 c9wjson "raw" c9wres h0, rfl⟩

lemma splitWsAux_mem (l : List Char) :
    ∀ (cur w : List Char), w ∈ splitWsAux l cur →
      ∀ ch ∈ w, ch ∈ cur ∨ ch ∈ l := by
  induction l with
  | nil =>
    intro cur w hw ch hch
    by_cases hc : cur.isEmpty
    · simp [splitWsAux, hc] at hw
    · simp only [splitWsAux, hc, Bool.false_eq_true, if_false,
        List.mem_singleton] at hw
      subst hw
      exact Or.inl (List.mem_reverse.mp hch)
  | cons c cs ih =>
    intro cur w hw ch hch
    by_cases hsp : isPySpace c
    · by_cases hc : cur.isEmpty
      · simp only [splitWsAux, hsp, if_true, hc] at hw
        rcases ih [] w hw ch hch with h | h
        · simp at h
        · exact Or.inr (List.mem_cons_of_mem _ h)
      · simp only [splitWsAux, hsp, if_true, hc, Bool.false_eq_true,
          if_false, List.mem_cons] at hw
        rcases hw with hw | hw
        · subst hw
          exact Or.inl (List.mem_reverse.mp hch)
        · rcases ih [] w hw ch hch with h | h
          · simp at h
          · exact Or.inr (List.mem_cons_of_mem _ h)
    · simp only [splitWsAux, hsp, Bool.false_eq_true, if_false] at hw
      rcases ih (c :: cur) w hw ch hch with h | h
      · rcases List.mem_cons.mp h with h | h
        · exact Or.inr (h ▸ List.mem_cons_self c cs)
        · exact Or.inl h
      · exact Or.inr (List.mem_cons_of_mem _ h)

lemma splitWsAux_words (l : List Char) :
    ∀ (cur : List Char), (∀ ch ∈ cur, isPySpace ch = false) →
      ∀ w ∈ splitWsAux l cur,
        w ≠ [] ∧ ∀ ch ∈ w, isPySpace ch = false := by
  induction l with
  | nil =>
    intro cur hcur w hw
    by_cases hc : cur.isEmpty
    · simp [splitWsAux, hc] at hw
    · simp only [splitWsAux, hc, Bool.false_eq_true, if_false,
        List.mem_singleton] at hw
      subst hw
      refine ⟨fun hnil => ?_, fun ch hch => hcur ch (List.mem_reverse.mp hch)⟩
      rw [List.reverse_eq_nil_iff] at hnil
      subst hnil
      simp at hc
  | cons c cs ih =>
    intro cur hcur w hw
    by_cases hsp : isPySpace c
    · by_cases hc : cur.isEmpty
      · simp only [splitWsAux, hsp, if_true, hc] at hw
        exact ih [] (by intro ch hch; simp at hch) w hw
      · simp only [splitWsAux, hsp, if_true, hc, Bool.false_eq_true,
          if_false, List.mem_cons] at hw
        rcases hw with hw | hw
        · subst hw
          refine ⟨fun hnil => ?_,
            fun ch hch => hcur ch (List.mem_reverse.mp hch)⟩
          rw [List.reverse_eq_nil_iff] at hnil
          subst hnil
          simp at hc
        · exact ih [] (by intro ch hch; simp at hch) w hw
    · simp only [splitWsAux, hsp, Bool.false_eq_true, if_false] at hw
      refine ih (c :: cur) ?_ w hw
      intro ch hch
      rcases List.mem_cons.mp hch with h | h
      · rw [h]
        simpa using hsp
      · exact hcur ch h

lemma joinSpace_ne_nil (ws : List (List Char)) (hne : ws ≠ [])
    (hw : ∀ w ∈ ws, w ≠ []) : joinSpace ws ≠ [] := by
  match ws with
  | [] => exact absurd rfl hne
  | [w] =>
    simpa [joinSpace] using hw w (List.mem_singleton.mpr rfl)
  | w :: w1 :: rest =>
    have h1 : w ≠ [] := hw w (List.mem_cons_self _ _)
    simp only [joinSpace]
    intro hcontra
    rcases List.append_eq_nil.mp hcontra with ⟨hwnil, _⟩
    exact h1 hwnil

lemma head_nonspace_of_dropWhile_fix (d : Char) (t : List Char)
    (h : List.dropWhile isPySpace (d :: t) = d :: t) :
    isPySpace d = false := by
  by_cases hd : isPySpace d
  · rw [List.dropWhile_cons, if_pos hd] at h
    have hlen := congrArg List.length h
    have hle := (List.dropWhile_suffix (l := t) isPySpace).sublist.length_le
    simp at hlen
    omega
  · simpa using hd

lemma dropWhile_reverse_joinSpace (ws : List (List Char))
    (h : ∀ w ∈ ws, w ≠ [] ∧ ∀ ch ∈ w, isPySpace ch = false) :
    List.dropWhile isPySpace (joinSpace ws).reverse = (joinSpace ws).reverse := by
  match ws with
  | [] => rfl
  | [w] =>
    obtain ⟨hne, hns⟩ := h w (List.mem_singleton.mpr rfl)
    simp only [joinSpace]
    cases hrev : w.reverse with
    | nil =>
      rw [List.reverse_eq_nil_iff] at hrev
      exact absurd hrev hne
    | cons d t =>
      have hd : d ∈ w := by
        rw [← List.mem_reverse, hrev]
        exact List.mem_cons_self _ _
      rw [List.dropWhile_cons, if_neg (by simp [hns d hd])]
  | w :: w1 :: rest =>
    have hrest : ∀ v ∈ w1 :: rest, v ≠ [] ∧ ∀ ch ∈ v, isPySpace ch = false :=
      fun v hv => h v (List.mem_cons_of_mem _ hv)
    have ihJ := dropWhile_reverse_joinSpace (w1 :: rest) hrest
    have hJne : joinSpace (w1 :: rest) ≠ [] :=
      joinSpace_ne_nil _ (by simp) (fun v hv => (hrest v hv).1)
    simp only [joinSpace, List.reverse_append, List.reverse_cons]
    cases hrev : (joinSpace (w1 :: rest)).reverse with
    | nil =>
      rw [List.reverse_eq_nil_iff] at hrev
      exact absurd hrev hJne
    | cons d t =>
      rw [hrev] at ihJ
      have hd : isPySpace d = false := head_nonspace_of_dropWhile_fix d t ihJ
      rw [List.cons_append, List.cons_append, List.dropWhile_cons,
        if_neg (by simp [hd])]

lemma stripPyWs_joinSpace (ws : List (List Char))
    (h : ∀ w ∈ ws, w ≠ [] ∧ ∀ ch ∈ w, isPySpace ch = false) :
    stripPyWs (joinSpace ws) = joinSpace ws := by
  have hfront : List.dropWhile isPySpace (joinSpace ws) = joinSpace ws := by
    match ws with
    | [] => rfl
    | [w] =>
      obtain ⟨hne, hns⟩ := h w (List.mem_singleton.mpr rfl)
      simp only [joinSpace]
      cases hw : w with
      | nil => exact absurd hw hne
      | cons d t =>
        have hd : d ∈ w := hw ▸ List.mem_cons_self _ _
        rw [List.dropWhile_cons, if_neg (by simp [hns d hd])]
    | w :: w1 :: rest =>
      obtain ⟨hne, hns⟩ := h w (List.mem_cons_self _ _)
      simp only [joinSpace]
      cases hw : w with
      | nil => exact absurd hw hne
      | cons d t =>
        have hd : d ∈ w := hw ▸ List.mem_cons_self _ _
        rw [List.cons_append, List.dropWhile_cons,
          if_neg (by simp [hns d hd])]
  unfold stripPyWs
  rw [hfront, dropWhile_reverse_joinSpace ws h, List.reverse_reverse]

/-- C8 counterexample: on the claim's own example input the code produces
"White onion diced" — str.capitalize lower-cases every letter after the
first, so "ONION" becomes "onion" — refuting "leaving all other letters
unchanged", which would instead give "White ONION diced". -/
theorem C8_counterexample :
    FoodAnalysis._clean_component_name "  white ONION (diced)  "
        = "White onion diced"
      ∧ ¬ FoodAnalysis._clean_component_name "  white ONION (diced)  "
        = "White ONION diced" := by
  constructor
  · rfl
  · intro h
    have h2 : ("White onion diced" : String) = "White ONION diced" :=
      Eq.trans (by rfl :
        ("White onion diced" : String)
          = FoodAnalysis._clean_component_name "  white ONION (diced)  ") h
    exact absurd h2 (by decide)

/-- C8 amended: name cleaning strips the bracket characters, collapses
whitespace runs and trims (the output is a space-join of nonempty,
whitespace-free, bracket-free words), and then applies Python
str.capitalize, which upper-cases the first character and LOWER-cases all
remaining characters (rather than leaving them unchanged); the spec's two
examples hold as stated. -/
theorem C8_amended_clean_name :
    (∀ name : String,
      ∃ ws : List (List Char),
        (∀ w ∈ ws, w ≠ [] ∧ ∀ ch ∈ w,
          isPySpace ch = false ∧ bracketChar ch = false)
        ∧ (FoodAnalysis._clean_component_name name).toList
            = pyCapList (joinSpace ws))
      ∧ FoodAnalysis._clean_component_name "Shredded beef (birria)"
        = "Shredded beef birria"
      ∧ FoodAnalysis._clean_component_name "  white ONION (diced)  "
        = "White onion diced" := by
  refine ⟨?_, rfl, rfl⟩
  intro name
  refine ⟨splitWs (name.toList.filter (fun c => !bracketChar c)), ?_, ?_⟩
  · intro w hw
    have hword := splitWsAux_words
      (name.toList.filter (fun c => !bracketChar c)) []
      (by intro ch hch; simp at hch) w hw
    refine ⟨hword.1, fun ch hch => ⟨hword.2 ch hch, ?_⟩⟩
    have hmem := splitWsAux_mem
      (name.toList.filter (fun c => !bracketChar c)) [] w hw ch hch
    rcases hmem with hmem | hmem
    · simp at hmem
    · have := (List.mem_filter.mp hmem).2
      simpa using this
  · have hwords : ∀ w ∈ splitWs (name.toList.filter (fun c => !bracketChar c)),
        w ≠ [] ∧ ∀ ch ∈ w, isPySpace ch = false := by
      intro w hw
      exact splitWsAux_words _ [] (by intro ch hch; simp at hch) w hw
    simp only [FoodAnalysis._clean_component_name]
    rw [stripPyWs_joinSpace _ hwords]
    rfl

/- The four whitespace characters skipped by json.loads. -/
def isJsonWs (c : Char) : Bool :=
  c = ' ' || c = '\t' || c = '\n' || c = '\r'

def skipJsonWs (cs : List Char) : List Char :=
  cs.dropWhile isJsonWs

def hexVal (c : Char) : Option Nat :=
  if c.isDigit then some (c.toNat - 48)
  else if 'a' ≤ c && c ≤ 'f' then some (c.toNat - 87)
  else if 'A' ≤ c && c ≤ 'F' then some (c.toNat - 55)
  else none

/- The body of a JSON string literal after the opening quote: content
characters and the remaining input after the closing quote. Escapes follow
the JSON grammar; raw control characters are rejected (json.loads default
strict mode); surrogate-pair combination is not modelled (no input here uses
escaped non-BMP characters). -/
def parseStringBody : List Char → Option (List Char × List Char)
  | [] => none
  | '"' :: rest => some ([], rest)
  | '\\' :: 'u' :: h1 :: h2 :: h3 :: h4 :: rest =>
    match hexVal h1, hexVal h2, hexVal h3, hexVal h4 with
    | some a, some b, some c, some d =>
      (parseStringBody rest).map
        (fun p => (Char.ofNat (((a * 16 + b) * 16 + c) * 16 + d) :: p.1, p.2))
    | _, _, _, _ => none
  | '\\' :: e :: rest =>
    let esc : Option Char :=
      if e = '"' then some '"'
      else if e = '\\' then some '\\'
      else if e = '/' then some '/'
      else if e = 'b' then some '\x08'
      else if e = 'f' then some '\x0c'
      else if e = 'n' then some '\n'
      else if e = 'r' then some '\r'
      else if e = 't' then some '\t'
      else none
    match esc with
    | some c => (parseStringBody rest).map (fun p => (c :: p.1, p.2))
    | none => none
  | c :: rest =>
    if c.toNat < 32 then none
    else (parseStringBody rest).map (fun p => (c :: p.1, p.2))

/- The exponent suffix of a JSON number. -/
def parseJsonExponent (base : ℚ) (cs : List Char) : Option (ℚ × List Char) :=
  let esgnr : Bool × List Char :=
    match cs with
    | '+' :: rr => (false, rr)
    | '-' :: rr => (true, rr)
    | rr => (false, rr)
  let epr := digitsVal esgnr.2 0 0
  if epr.2.1 = 0 then none
  else
    some (base * (if esgnr.1 then ((10 : ℚ) ^ epr.1)⁻¹ else (10 : ℚ) ^ epr.1),
      epr.2.2)

/- A JSON number: optional minus, integer part (0 or nonzero-led digits),
optional fraction with at least one digit, optional exponent with at least
one digit. -/
def parseJsonNumber (cs : List Char) : Option (ℚ × List Char) :=
  let sgncs : ℚ × List Char :=
    match cs with
    | '-' :: r => (-1, r)
    | r => (1, r)
  match sgncs.2 with
  | [] => none
  | c :: r =>
    let ipr : Nat × Nat × List Char :=
      if c = '0' then (0, 1, r)
      else if c.isDigit then digitsVal (c :: r) 0 0
      else (0, 0, c :: r)
    if ipr.2.1 = 0 then none
    else
      let fpr : Nat × Nat × List Char :=
        match ipr.2.2 with
        | '.' :: r2 => digitsVal r2 0 0
        | r2 => (0, 1, r2)
      if fpr.2.1 = 0 then none
      else
        let mant : ℚ :=
          match ipr.2.2 with
          | '.' :: _ => (ipr.1 : ℚ) + (fpr.1 : ℚ) / (10 : ℚ) ^ fpr.2.1
          | _ => (ipr.1 : ℚ)
        match fpr.2.2 with
        | 'e' :: r3 => parseJsonExponent (sgncs.1 * mant) r3
        | 'E' :: r3 => parseJsonExponent (sgncs.1 * mant) r3
        | r3 => some (sgncs.1 * mant, r3)

mutual

/- One JSON value, leading whitespace already skipped; fuel bounds the
recursion depth. -/
def parseJsonValue : Nat → List Char → Option (Json × List Char)
  | 0, _ => none
  | Nat.succ fuel, cs =>
    match cs with
    | '{' :: rest =>
      match skipJsonWs rest with
      | '}' :: r2 => some (Json.obj [], r2)
      | r1 =>
        Option.bind (parseJsonMembers fuel r1) fun p =>
        some (Json.obj p.1, p.2)
    | '[' :: rest =>
      match skipJsonWs rest with
      | ']' :: r2 => some (Json.arr [], r2)
      | r1 =>
        Option.bind (parseJsonElements fuel r1) fun p =>
        some (Json.arr p.1, p.2)
    | '"' :: rest =>
      Option.bind (parseStringBody rest) fun p =>
      some (Json.str (String.mk p.1), p.2)
    | 't' :: 'r' :: 'u' :: 'e' :: rest => some (Json.bool true, rest)
    | 'f' :: 'a' :: 'l' :: 's' :: 'e' :: rest => some (Json.bool false, rest)
    | 'n' :: 'u' :: 'l' :: 'l' :: rest => some (Json.null, rest)
    | _ =>
      Option.bind (parseJsonNumber cs) fun p =>
      some (Json.num p.1, p.2)

/- The members of a nonempty JSON object, positioned at the first key. -/
def parseJsonMembers :
    Nat → List Char → Option (List (String × Json) × List Char)
  | 0, _ => none
  | Nat.succ fuel, cs =>
    match cs with
    | '"' :: rest =>
      Option.bind (parseStringBody rest) fun kp =>
      match skipJsonWs kp.2 with
      | ':' :: r2 =>
        Option.bind (parseJsonValue fuel (skipJsonWs r2)) fun vp =>
        match skipJsonWs vp.2 with
        | ',' :: r4 =>
          Option.bind (parseJsonMembers fuel (skipJsonWs r4)) fun mp =>
          some ((String.mk kp.1, vp.1) :: mp.1, mp.2)
        | '}' :: r4 => some ([(String.mk kp.1, vp.1)], r4)
        | _ => none
      | _ => none
    | _ => none

/- The elements of a nonempty JSON array, positioned at the first value. -/
def parseJsonElements : Nat → List Char → Option (List Json × List Char)
  | 0, _ => none
  | Nat.succ fuel, cs =>
    Option.bind (parseJsonValue fuel cs) fun vp =>
    match skipJsonWs vp.2 with
    | ',' :: r2 =>
      Option.bind (parseJsonElements fuel (skipJsonWs r2)) fun ep =>
      some (vp.1 :: ep.1, ep.2)
    | ']' :: r2 => some ([vp.1], r2)
    | _ => none

end

/- json.loads: parse one JSON value surrounded only by whitespace; any
failure or trailing data raises JSONDecodeError, modelled as none. The
NaN/Infinity extensions accepted by Python are not modelled (no input here
uses them). -/
def jsonLoads (s : String) : Option Json :=
  let cs := skipJsonWs s.toList
  Option.bind (parseJsonValue (2 * cs.length + 2) cs) fun p =>
  if (skipJsonWs p.2).isEmpty then some p.1 else none

/- Model of the fenced-block regex search in extract_json_from_response:
re.search of three backticks, an optional literal json, backslash-s-star, a
lazily matched brace group, backslash-s-star and three closing backticks,
with re.DOTALL. The group's closing brace is the first brace after which
whitespace followed by three backticks appears (lazy matching with
backtracking); the optional json literal is preferred when present; start
positions are scanned left to right. -/
def fenceClose (cs : List Char) : Bool :=
  match cs.dropWhile isPySpace with
  | '`' :: '`' :: '`' :: _ => true
  | _ => false

/- The lazy group body after its opening brace: the shortest prefix ending
at a closing brace whose tail matches whitespace-then-backticks; none when
no such close exists. Returns the group content up to and including the
closing brace. -/
def lazyGroupRest : List Char → Option (List Char)
  | [] => none
  | c :: rest =>
    if c = '}' && fenceClose rest then some ['}']
    else
      match lazyGroupRest rest with
      | some g => some (c :: g)
      | none => none

/- After the backticks and the optional json tag: skip whitespace greedily,
require an opening brace, then take the lazy group. -/
def fenceGroupFrom (cs : List Char) : Option (List Char) :=
  match cs.dropWhile isPySpace with
  | '{' :: rest =>
    match lazyGroupRest rest with
    | some g => some ('{' :: g)
    | none => none
  | _ => none

/- Attempt the fenced pattern at one start position: three backticks, then
the json branch first (regex ? is greedy), then the empty branch. -/
def tryFenceAt : List Char → Option (List Char)
  | '`' :: '`' :: '`' :: rest =>
    (match rest with
    | 'j' :: 's' :: 'o' :: 'n' :: rest2 =>
      match fenceGroupFrom rest2 with
      | some g => some g
      | none => fenceGroupFrom rest
    | _ => fenceGroupFrom rest)
  | _ => none

/- re.search: scan start positions left to right, first successful match
wins; the returned value is the captured brace group. -/
def searchFence : List Char → Option (List Char)
  | [] => none
  | c :: rest =>
    match tryFenceAt (c :: rest) with
    | some g => some g
    | none => searchFence rest

/- Model of re.search of a greedy brace span with re.DOTALL: from the first
opening brace through the last closing brace, when the last closing brace
follows the first opening brace. -/
def braceSpan (cs : List Char) : Option (List Char) :=
  let t := cs.dropWhile (fun c => !(c = '{'))
  let u := (t.reverse.dropWhile (fun c => !(c = '}'))).reverse
  if u.isEmpty then none else some u

/- The single candidate string whose parse extract_json_from_response
attempts: the fenced group when the fence pattern matches, else the greedy
brace span when braces are found, else the whole text. -/
def selectedCandidate (text : String) : List Char :=
  match searchFence text.toList with
  | some g => g
  | none =>
    match braceSpan text.toList with
    | some sp => sp
    | none => text.toList

/- extract_json_from_response from food-analysis-lambda/service/utils.py,
lines 66-93: pick the candidate span and run json.loads on it once,
returning None when that single parse fails. -/
def extract_json_from_response (text : String) : Option Json :=
  jsonLoads (String.mk (selectedCandidate text))

lemma lazyGroupRest_prefix (cs : List Char) (g : List Char)
    (h : lazyGroupRest cs = some g) : g <+: cs := by
  induction cs generalizing g with
  | nil => simp [lazyGroupRest] at h
  | cons c rest ih =>
    unfold lazyGroupRest at h
    split at h
    · obtain rfl : ['}'] = g := Option.some_inj.mp h
      rename_i hcond
      have hc : c = '}' := by
        have := (Bool.and_eq_true _ _).mp hcond
        simpa using this.1
      subst hc
      exact ⟨rest, rfl⟩
    · split at h
      · rename_i g' hg'
        obtain rfl : c :: g' = g := Option.some_inj.mp h
        obtain ⟨t, ht⟩ := ih g' hg'
        exact ⟨t, by rw [List.cons_append, ht]⟩
      · exact absurd h (by simp)

lemma fenceGroupFrom_infix (cs : List Char) (g : List Char)
    (h : fenceGroupFrom cs = some g) : g <:+: cs := by
  unfold fenceGroupFrom at h
  split at h
  · rename_i rest heq
    split at h
    · rename_i g' hg'
      obtain rfl : '{' :: g' = g := Option.some_inj.mp h
      have h1 : '{' :: g' <+: '{' :: rest := by
        obtain ⟨t, ht⟩ := lazyGroupRest_prefix _ _ hg'
        exact ⟨t, by rw [List.cons_append, ht]⟩
      have h2 : '{' :: rest <:+ cs := by
        rw [← heq]
        exact List.dropWhile_suffix _
      exact h1.isInfix.trans h2.isInfix
    · exact absurd h (by simp)
  · exact absurd h (by simp)

lemma tryFenceAt_infix (cs : List Char) (g : List Char)
    (h : tryFenceAt cs = some g) : g <:+: cs := by
  unfold tryFenceAt at h
  split at h
  · rename_i rest
    have hsub : g <:+: rest := by
      split at h
      · rename_i rest2
        split at h
        · rename_i g' hg'
          obtain rfl : g' = g := Option.some_inj.mp h
          have h1 := fenceGroupFrom_infix _ _ hg'
          have h2 : rest2 <:+ 'j' :: 's' :: 'o' :: 'n' :: rest2 :=
            ⟨['j', 's', 'o', 'n'], rfl⟩
          exact h1.trans h2.isInfix
        · exact fenceGroupFrom_infix _ _ h
      · exact fenceGroupFrom_infix _ _ h
    have h3 : rest <:+ '`' :: '`' :: '`' :: rest := ⟨['`', '`', '`'], rfl⟩
    exact hsub.trans h3.isInfix
  · exact absurd h (by simp)

lemma searchFence_infix (cs : List Char) (g : List Char)
    (h : searchFence cs = some g) : g <:+: cs := by
  induction cs generalizing g with
  | nil => simp [searchFence] at h
  | cons c rest ih =>
    unfold searchFence at h
    split at h
    · rename_i g' hg'
      obtain rfl : g' = g := Option.some_inj.mp h
      exact tryFenceAt_infix _ _ hg'
    · exact List.infix_cons (ih g h)

lemma braceSpan_infix (cs : List Char) (g : List Char)
    (h : braceSpan cs = some g) : g <:+: cs := by
  simp only [braceSpan] at h
  split at h
  · exact absurd h (by simp)
  · obtain rfl := Option.some_inj.mp h
    have h1 : cs.dropWhile (fun c => !(c = '{')) <:+ cs :=
      List.dropWhile_suffix _
    have h2 := List.dropWhile_suffix (l :=
      (cs.dropWhile (fun c => !(c = '{'))).reverse) (fun c => !(c = '}'))
    have h3 := List.reverse_prefix.mpr h2
    rw [List.reverse_reverse] at h3
    exact h3.isInfix.trans h1.isInfix

def c3text : String := "\x7b\"a\": \"```json \x7bb\x7d ```\"\x7d"

/-- C3 counterexample: on the input whose whole text is the JSON object
mapping "a" to the string "```json \x7bb\x7d ```", the fenced-block step
captures the span \x7bb\x7d, whose parse fails; the greedy outer-brace span
(the whole text) does parse; yet extraction returns absence — the extractor
does not fall through to the next step on a parse failure, refuting the
claim. -/
theorem C3_counterexample :
    searchFence c3text.toList = some ('{' :: 'b' :: '}' :: [])
      ∧ jsonLoads (String.mk ('{' :: 'b' :: '}' :: [])) = none
      ∧ (braceSpan c3text.toList).isSome = true
      ∧ jsonLoads (String.mk ((braceSpan c3text.toList).getD []))
        = some (Json.obj [("a", Json.str "```json \x7bb\x7d ```")])
      ∧ extract_json_from_response c3text = none :=
  ⟨rfl, rfl, rfl, rfl, rfl⟩

/-- C3 amended: the extractor tries the three steps in order only to SELECT
a single candidate span — the fenced brace group when the fence pattern
matches, else the greedy outer-brace span, else the whole text — and then
parses that one candidate exactly once: when the fence pattern matches, the
result is the parse of the fenced group (absence on its failure, with no
fall-through to the later spans); when it does not and braces are found, the
result is the parse of the outer-brace span; when neither matches, the
result is the parse of the whole text. -/
theorem C3_amended_single_candidate (text : String) :
    (∀ g, searchFence text.toList = some g
      → extract_json_from_response text = jsonLoads (String.mk g))
      ∧ (searchFence text.toList = none →
        ∀ sp, braceSpan text.toList = some sp
        → extract_json_from_response text = jsonLoads (String.mk sp))
      ∧ (searchFence text.toList = none → braceSpan text.toList = none
        → extract_json_from_response text = jsonLoads text) := by
  refine ⟨?_, ?_, ?_⟩
  · intro g hg
    unfold extract_json_from_response selectedCandidate
    rw [hg]
  · intro hn sp hsp
    unfold extract_json_from_response selectedCandidate
    rw [hn, hsp]
  · intro hn hb
    unfold extract_json_from_response selectedCandidate
    rw [hn, hb]
    rfl

def c3w1 : String := "Sure:\n```json\n\x7b\"a\": 1\x7d\n```"

def c3w1g : List Char := ("\x7b\"a\": 1\x7d" : String).toList

def c3w2 : String := "x \x7b\"b\": 2\x7d y"

def c3w2sp : List Char := ("\x7b\"b\": 2\x7d" : String).toList

def c3w3 : String := "no braces anywhere"

theorem C3_amended_witness :
    extract_json_from_response c3w1 = jsonLoads (String.mk c3w1g)
      ∧ extract_json_from_response c3w2 = jsonLoads (String.mk c3w2sp)
      ∧ extract_json_from_response c3w3 = jsonLoads c3w3 :=
  ⟨(C3_amended_single_candidate c3w1).1 c3w1g rfl,
   (C3_amended_single_candidate c3w2).2.1 rfl c3w2sp rfl,
   (C3_amended_single_candidate c3w3).2.2 rfl rfl⟩

/-- C4: the extractor is a total pure function of the input string (it is a
Lean function built from total parsers; the one Python call that can raise,
json.loads, is wrapped so failure yields None). When the single selected
candidate fails to parse the extractor returns absence rather than raising,
and every returned value is the successful json.loads parse of a contiguous
substring of the input. -/
theorem C4_extractor_totality (text : String) :
    (jsonLoads (String.mk (selectedCandidate text)) = none
      → extract_json_from_response text = none)
      ∧ (∀ j, extract_json_from_response text = some j
        → ∃ u : String, u.toList <:+: text.toList ∧ jsonLoads u = some j) := by
  constructor
  · intro h
    exact h
  · intro j hj
    refine ⟨String.mk (selectedCandidate text), ?_, hj⟩
    show selectedCandidate text <:+: text.toList
    unfold selectedCandidate
    split
    · rename_i g hg
      exact searchFence_infix _ _ hg
    · split
      · rename_i sp hsp
        exact braceSpan_infix _ _ hsp
      · exact List.infix_refl _

theorem C4_witness :
    extract_json_from_response "no json here at all" = none
      ∧ (∃ u : String,
        u.toList <:+: ("ok \x7b\"k\": true\x7d!" : String).toList
        ∧ jsonLoads u = some (Json.obj [("k", Json.bool true)])) := by
  refine ⟨(C4_extractor_totality "no json here at all").1 rfl, ?_⟩
  exact (C4_extractor_totality "ok \x7b\"k\": true\x7d!").2
    (Json.obj [("k", Json.bool true)]) rfl
